import Mathlib

/-!
Shallow embedding of the `microconsole` Go package (console.go).

The package exposes a `Console` holding an input source (`io.Reader`) and an
output sink (`io.Writer`), with three operations:
  * `GetInput`   — write a prompt, read one line, trim whitespace;
  * `GetConfirm` — yes/no confirmation on top of `GetInput`;
  * `GetPassword`— masked read, only permitted when the input is `os.Stdin`.

Go errors are modelled as an inductive type distinguishing the sentinel
`ErrInvalidConfirmation`, `io.EOF`, plain `fmt.Errorf` errors and wrapping
`fmt.Errorf("msg: %w", cause)` errors.  Readers are modelled as the character
stream the underlying `io.Reader` will produce followed by how the stream
ends (end-of-stream, or a read error).  Writers are modelled as the buffer of
bytes accepted so far plus a script of outcomes for the successive `Write`
calls (the test suite's `failingWriter` is a writer whose next outcome is an
error; a `bytes.Buffer` is a writer whose script is empty, i.e. always ok).
-/

/-- Go `error` values as console.go distinguishes them:
`invalidConfirmation` is the sentinel `ErrInvalidConfirmation`
(`errors.New("invalid confirmation input")`), `eofErr` is `io.EOF`,
`simple msg` is `fmt.Errorf(msg)` with no `%w` verb, and `wrapped msg cause`
is `fmt.Errorf(msg ++ ": %w", cause)`. -/
inductive GoError where
  | invalidConfirmation : GoError
  | eofErr : GoError
  | simple (msg : String) : GoError
  | wrapped (msg : String) (cause : GoError) : GoError
deriving DecidableEq, Repr

/-- `var ErrInvalidConfirmation = errors.New("invalid confirmation input")`. -/
def ErrInvalidConfirmation : GoError := GoError.invalidConfirmation

/-- How an input stream ends once its buffered characters are exhausted:
end-of-stream (`io.EOF`) or a transport-level read error. -/
inductive StreamEnd where
  | eof : StreamEnd
  | fail (e : GoError) : StreamEnd
deriving DecidableEq, Repr

/-- The error the final `Read` call reports. -/
def StreamEnd.toError : StreamEnd → GoError
  | StreamEnd.eof => GoError.eofErr
  | StreamEnd.fail e => e

/-- Model of an `io.Reader`: the characters it will produce, then how it
ends.  (Go reads bytes; the console only ever compares against ASCII data,
so characters model the byte stream faithfully here.) -/
structure GoReader where
  content : List Char
  ending : StreamEnd
deriving DecidableEq, Repr

/-- Split off the first line — up to and including the first newline — of a
character stream; `none` when the stream holds no newline. -/
def takeLineAux : List Char → Option (List Char × List Char)
  | [] => none
  | c :: cs =>
    if c = '\n' then some ([c], cs)
    else
      match takeLineAux cs with
      | some (l, r) => some (c :: l, r)
      | none => none

/-- Model of `bufio.NewReader(c.in)` followed by `reader.ReadString('\n')`:
on success the returned line includes the newline and the rest of the stream
is left unread; when the stream ends before a newline is seen, `ReadString`
returns the error of the final read (`io.EOF` on end-of-stream), and
`GetInput` discards the partial data. -/
def GoReader.readLine (r : GoReader) : Except GoError (List Char) × GoReader :=
  match takeLineAux r.content with
  | some (l, rest) => (Except.ok l, { r with content := rest })
  | none => (Except.error r.ending.toError, { r with content := [] })

/-- Model of an `io.Writer`: the bytes accepted so far, plus a script giving
the outcome of each successive `Write` call — `none` for a successful write,
`some e` for a call that writes nothing and returns `e`.  An exhausted (or
empty) script means every further write succeeds, like a `bytes.Buffer`. -/
structure GoWriter where
  buf : String
  script : List (Option GoError)
deriving DecidableEq, Repr

/-- One `Write` call (`fmt.Fprint(w, s)`): consume the next scripted outcome;
append `s` on success, report the scripted error otherwise. -/
def GoWriter.write (w : GoWriter) (s : String) : Except GoError Unit × GoWriter :=
  match w.script with
  | [] => (Except.ok (), { w with buf := w.buf ++ s })
  | none :: rest => (Except.ok (), { buf := w.buf ++ s, script := rest })
  | some e :: rest => (Except.error e, { w with script := rest })

/-- Whether the writer's next `Write` call succeeds. -/
def GoWriter.nextOk (w : GoWriter) : Bool :=
  match w.script with
  | [] => true
  | none :: _ => true
  | some _ :: _ => false

/-- Model of Go's `unicode.IsSpace`: the Unicode White_Space property
(`'\t'`, `'\n'`, `'\v'`, `'\f'`, `'\r'`, `' '`, NEL, NBSP, and the
higher-plane space code points). -/
def goIsSpace (c : Char) : Bool :=
  c = ' ' || c = '\t' || c = '\n' || c = '\r'
  || c.toNat = 0x0B || c.toNat = 0x0C || c.toNat = 0x85 || c.toNat = 0xA0
  || c.toNat = 0x1680 || (0x2000 ≤ c.toNat && c.toNat ≤ 0x200A)
  || c.toNat = 0x2028 || c.toNat = 0x2029 || c.toNat = 0x202F
  || c.toNat = 0x205F || c.toNat = 0x3000

/-- Drop trailing characters satisfying `goIsSpace`. -/
def trimRight (l : List Char) : List Char :=
  (l.reverse.dropWhile goIsSpace).reverse

/-- `strings.TrimSpace` on the character list: strip leading and trailing
Unicode white space. -/
def goTrimSpaceList (l : List Char) : List Char :=
  trimRight (l.dropWhile goIsSpace)

/-- Model of Go's `strings.TrimSpace`. -/
def goTrimSpace (s : String) : String :=
  String.mk (goTrimSpaceList s.data)

/-- Model of Go's `strings.ToLower` on one character, restricted to the code
points the confirmation switch can distinguish: ASCII letters are lowered,
every other character is kept.  (Go lowers non-ASCII characters through the
Unicode tables, but no non-ASCII character lowers to any of the ASCII
letters `y`, `e`, `s`, `n`, `o` that the switch compares against, so the
restriction does not change any comparison made by this program.) -/
def goToLowerChar (c : Char) : Char :=
  if 'A' ≤ c && c ≤ 'Z' then Char.ofNat (c.toNat + 32) else c

/-- Model of Go's `strings.ToLower`. -/
def goToLower (s : String) : String :=
  String.mk (s.data.map goToLowerChar)

instance {ε α : Type} [DecidableEq ε] [DecidableEq α] : DecidableEq (Except ε α) := fun x y =>
  match x, y with
  | Except.ok a, Except.ok b =>
    if h : a = b then isTrue (by rw [h]) else isFalse (by simp [h])
  | Except.error a, Except.error b =>
    if h : a = b then isTrue (by rw [h]) else isFalse (by simp [h])
  | Except.ok _, Except.error _ => isFalse (by simp)
  | Except.error _, Except.ok _ => isFalse (by simp)

/-- The `Console` of console.go, `{in io.Reader; out io.Writer}`, together
with the two facts about its surroundings that the operations consult:
  * `isStdin` — whether `in == os.Stdin` (Go interface identity, tested by
    `GetPassword`);
  * `termRead` — the outcome of the external call
    `term.ReadPassword(syscall.Stdin)` against the real terminal, consulted
    only on the `os.Stdin` path of `GetPassword` (an oracle for the external
    terminal facility, which is not part of this package).
`in` is a Lean keyword, so the field is named `inp`. -/
structure Console where
  isStdin : Bool
  inp : GoReader
  termRead : Except GoError String
  out : GoWriter
deriving DecidableEq, Repr

/-- `GetInput`: write the prompt (wrapping a failure as
`"writing prompt: %w"`), then read one line (wrapping a failure as
`"reading input: %w"`), and return the line trimmed of whitespace. -/
def Console.GetInput (c : Console) (prompt : String) :
    Except GoError String × Console :=
  match c.out.write prompt with
  | (Except.error e, w) =>
    (Except.error (GoError.wrapped "writing prompt" e), { c with out := w })
  | (Except.ok _, w) =>
    match c.inp.readLine with
    | (Except.error e, r) =>
      (Except.error (GoError.wrapped "reading input" e), { c with out := w, inp := r })
    | (Except.ok l, r) =>
      (Except.ok (goTrimSpace (String.mk l)), { c with out := w, inp := r })

/-- The suffix `GetConfirm` appends to its prompt:
`suffix := " [y/N]: "; if defaultYes { suffix = " [Y/n]: " }`. -/
def confirmSuffix (defaultYes : Bool) : String :=
  if defaultYes then " [Y/n]: " else " [y/N]: "

/-- `GetConfirm`: delegate to `GetInput` with the suffixed prompt, propagate
its failure unchanged, return `defaultYes` on an empty trimmed line, and
otherwise switch on `strings.ToLower(input)`: `"y"`/`"yes"` mean `true`,
`"n"`/`"no"` mean `false`, anything else is `ErrInvalidConfirmation`. -/
def Console.GetConfirm (c : Console) (prompt : String) (defaultYes : Bool) :
    Except GoError Bool × Console :=
  match c.GetInput (prompt ++ confirmSuffix defaultYes) with
  | (Except.error e, c1) => (Except.error e, c1)
  | (Except.ok input, c1) =>
    (if input = "" then Except.ok defaultYes
     else if goToLower input = "y" || goToLower input = "yes" then Except.ok true
     else if goToLower input = "n" || goToLower input = "no" then Except.ok false
     else Except.error ErrInvalidConfirmation, c1)

/-- The error `GetPassword` returns when the console's input is not
`os.Stdin`: `fmt.Errorf("password input requires os.Stdin, got different io.Reader")`. -/
def passwordPolicyError : GoError :=
  GoError.simple "password input requires os.Stdin, got different io.Reader"

/-- `GetPassword`: write the prompt (wrapping a failure); fail with the
policy error when `c.in != os.Stdin`; otherwise perform the external
`term.ReadPassword(syscall.Stdin)` call (wrapping its failure as
`"reading password: %w"`); on success execute `fmt.Fprintln(c.out)` — whose
return values the Go code discards — and return the password untrimmed. -/
def Console.GetPassword (c : Console) (prompt : String) :
    Except GoError String × Console :=
  match c.out.write prompt with
  | (Except.error e, w) =>
    (Except.error (GoError.wrapped "writing prompt" e), { c with out := w })
  | (Except.ok _, w) =>
    if c.isStdin = false then
      (Except.error passwordPolicyError, { c with out := w })
    else
      match c.termRead with
      | Except.error e =>
        (Except.error (GoError.wrapped "reading password" e), { c with out := w })
      | Except.ok pw =>
        match w.write "\n" with
        | (_, w2) => (Except.ok pw, { c with out := w2 })

/-!
Nil-capability model for `NewWithStreams`.  Go's `NewWithStreams` stores the
two interface values without checking them, so construction always succeeds;
a `nil` capability is only hit at first use.  Calling a method on a nil
interface value panics in Go: `fmt.Fprint` on a nil `io.Writer` panics when
it calls `Write`, and `bufio.NewReader(nil).ReadString` panics when it calls
`Read`.  `UseOutcome.panicked` models that abrupt, non-returned failure.
-/

/-- A console whose capabilities may be absent (`nil`). -/
structure OptConsole where
  inp : Option GoReader
  out : Option GoWriter
deriving DecidableEq, Repr

/-- `NewWithStreams(in, out)` stores the capabilities unchecked. -/
def NewWithStreams (inp : Option GoReader) (out : Option GoWriter) : OptConsole :=
  ⟨inp, out⟩

/-- Outcome of running an operation on a possibly-nil-capability console:
either a Go panic (method call on a nil interface) or a returned result. -/
inductive UseOutcome where
  | panicked : UseOutcome
  | returned (r : Except GoError String) : UseOutcome
deriving DecidableEq, Repr

/-- `GetInput` on an `OptConsole`: identical control flow to
`Console.GetInput`, except that touching an absent capability panics —
`fmt.Fprint(nil, prompt)` panics before writing, and the read through
`bufio.NewReader(nil)` panics when it first calls `Read`. -/
def OptConsole.getInputUse (c : OptConsole) (prompt : String) : UseOutcome :=
  match c.out with
  | none => UseOutcome.panicked
  | some w =>
    match w.write prompt with
    | (Except.error e, _) =>
      UseOutcome.returned (Except.error (GoError.wrapped "writing prompt" e))
    | (Except.ok _, _) =>
      match c.inp with
      | none => UseOutcome.panicked
      | some r =>
        match r.readLine with
        | (Except.error e, _) =>
          UseOutcome.returned (Except.error (GoError.wrapped "reading input" e))
        | (Except.ok l, _) =>
          UseOutcome.returned (Except.ok (goTrimSpace (String.mk l)))

/-- Trimming as the specification sentence words it: strip only space, tab,
newline and carriage return.  Spec-side definition, kept to compare with the
source-modelled `goTrimSpace`. -/
def specIsSpace (c : Char) : Bool :=
  c = ' ' || c = '\t' || c = '\n' || c = '\r'

/-- Spec-worded trimming (leading and trailing, over `specIsSpace`). -/
def specTrim (s : String) : String :=
  String.mk (((s.data.dropWhile specIsSpace).reverse.dropWhile specIsSpace).reverse)

/-! ### Helper lemmas -/

theorem str_empty_append (s : String) : "" ++ s = s := rfl

theorem trimRight_append_newline (l : List Char) :
    trimRight (l ++ ['\n']) = trimRight l := by
  have h : goIsSpace '\n' = true := rfl
  simp [trimRight, List.reverse_append, List.dropWhile_cons, h]

theorem goTrimSpaceList_cons_space (c : Char) (l : List Char)
    (h : goIsSpace c = true) :
    goTrimSpaceList (c :: l) = goTrimSpaceList l := by
  simp [goTrimSpaceList, List.dropWhile_cons, h]

theorem goTrimSpaceList_append_newline (l : List Char) :
    goTrimSpaceList (l ++ ['\n']) = goTrimSpaceList l := by
  induction l with
  | nil => decide
  | cons c l ih =>
    cases hc : goIsSpace c with
    | true =>
      rw [List.cons_append, goTrimSpaceList_cons_space c _ hc,
        goTrimSpaceList_cons_space c _ hc, ih]
    | false =>
      simp only [goTrimSpaceList, List.cons_append, List.dropWhile_cons, hc,
        if_neg Bool.false_ne_true]
      exact trimRight_append_newline (c :: l)

theorem takeLineAux_append_newline (l : List Char) (h : '\n' ∉ l) :
    takeLineAux (l ++ ['\n']) = some (l ++ ['\n'], []) := by
  induction l with
  | nil => decide
  | cons c l ih =>
    have hc : ¬ c = '\n' := fun hc0 => h (hc0 ▸ List.mem_cons_self c l)
    have hl : '\n' ∉ l := fun hl0 => h (List.mem_cons_of_mem c hl0)
    simp [takeLineAux, hc, ih hl]

theorem getInput_error_shape (st : Bool) (r : GoReader) (tr : Except GoError String)
    (buf p : String) (script : List (Option GoError)) (e : GoError)
    (h : (Console.GetInput ⟨st, r, tr, ⟨buf, script⟩⟩ p).1 = Except.error e) :
    ∃ m cause, e = GoError.wrapped m cause := by
  rcases script with _ | ⟨o, rest⟩
  · rcases hr : takeLineAux r.content with _ | ⟨l, rest2⟩ <;>
      simp [Console.GetInput, GoWriter.write, GoReader.readLine, hr] at h
    exact ⟨_, _, h.symm⟩
  · rcases o with _ | e0
    · rcases hr : takeLineAux r.content with _ | ⟨l, rest2⟩ <;>
        simp [Console.GetInput, GoWriter.write, GoReader.readLine, hr] at h
      exact ⟨_, _, h.symm⟩
    · simp [Console.GetInput, GoWriter.write] at h
      exact ⟨_, _, h.symm⟩

/-! ### Claim theorems -/

/-- C4: if the output sink fails the prompt write with error `e`, both
`GetInput` and `GetConfirm` fail with a WriteFailure error
(`fmt.Errorf("writing prompt: %w", e)`) wrapping the underlying write error,
and no read is attempted: the input source is left exactly as it was. -/
theorem write_failure_no_read (st : Bool) (r : GoReader) (tr : Except GoError String)
    (buf p : String) (dy : Bool) (e : GoError) (rest : List (Option GoError)) :
    ((Console.GetInput ⟨st, r, tr, ⟨buf, some e :: rest⟩⟩ p).1
        = Except.error (GoError.wrapped "writing prompt" e)
      ∧ (Console.GetInput ⟨st, r, tr, ⟨buf, some e :: rest⟩⟩ p).2.inp = r)
    ∧ (Console.GetConfirm ⟨st, r, tr, ⟨buf, some e :: rest⟩⟩ p dy).1
        = Except.error (GoError.wrapped "writing prompt" e)
    ∧ (Console.GetConfirm ⟨st, r, tr, ⟨buf, some e :: rest⟩⟩ p dy).2.inp = r :=
  ⟨⟨rfl, rfl⟩, rfl, rfl⟩

/-- C10: on a console whose input is not `os.Stdin`, `GetPassword` consumes
zero bytes from the input source: whatever the writer does, the input
source after the call is exactly what it was before. -/
theorem getPassword_zero_input_consumed (r : GoReader) (tr : Except GoError String)
    (w : GoWriter) (p : String) :
    (Console.GetPassword ⟨false, r, tr, w⟩ p).2.inp = r := by
  rcases w with ⟨buf, script⟩
  rcases script with _ | ⟨o, rest⟩
  · rfl
  · rcases o with _ | e <;> rfl

/-- C3: on a console whose input is not `os.Stdin`, when the prompt write
succeeds, `GetPassword` fails with the policy error and the prompt has
still been written verbatim to the output sink. -/
theorem getPassword_policy_violation (r : GoReader) (tr : Except GoError String)
    (buf p : String) (script : List (Option GoError))
    (hw : GoWriter.nextOk ⟨buf, script⟩ = true) :
    (Console.GetPassword ⟨false, r, tr, ⟨buf, script⟩⟩ p).1
        = Except.error passwordPolicyError
    ∧ (Console.GetPassword ⟨false, r, tr, ⟨buf, script⟩⟩ p).2.out.buf = buf ++ p := by
  rcases script with _ | ⟨o, rest⟩
  · exact ⟨rfl, rfl⟩
  · rcases o with _ | e
    · exact ⟨rfl, rfl⟩
    · simp [GoWriter.nextOk] at hw

/-- Witness for C3: a console reading from an injected stream (not stdin),
with a working sink, rejects `GetPassword` and has written the prompt. -/
theorem getPassword_policy_violation_witness :
    (Console.GetPassword ⟨false, ⟨("secret\n").data, StreamEnd.eof⟩,
        Except.ok "pw", ⟨"", []⟩⟩ "Password: ").1 = Except.error passwordPolicyError
    ∧ (Console.GetPassword ⟨false, ⟨("secret\n").data, StreamEnd.eof⟩,
        Except.ok "pw", ⟨"", []⟩⟩ "Password: ").2.out.buf = "" ++ "Password: " :=
  getPassword_policy_violation ⟨("secret\n").data, StreamEnd.eof⟩ (Except.ok "pw")
    "" "Password: " [] rfl

/-- C5: when the prompt write succeeds but the stream holds no newline —
immediate end-of-stream, a partial last line, or a transport error —
`GetInput` fails with a ReadFailure error wrapping the stream's final read
error; no success path returns partial-line text. -/
theorem getInput_read_failure (st : Bool) (r : GoReader) (tr : Except GoError String)
    (buf p : String) (script : List (Option GoError))
    (hw : GoWriter.nextOk ⟨buf, script⟩ = true)
    (hr : takeLineAux r.content = none) :
    (Console.GetInput ⟨st, r, tr, ⟨buf, script⟩⟩ p).1
      = Except.error (GoError.wrapped "reading input" r.ending.toError) := by
  rcases script with _ | ⟨o, rest⟩
  · simp [Console.GetInput, GoWriter.write, GoReader.readLine, hr]
  · rcases o with _ | e
    · simp [Console.GetInput, GoWriter.write, GoReader.readLine, hr]
    · simp [GoWriter.nextOk] at hw

/-- Witness for C5: an empty input source (immediate end-of-stream) makes
`GetInput` fail with the ReadFailure error wrapping `io.EOF`. -/
theorem getInput_read_failure_witness :
    (Console.GetInput ⟨false, ⟨[], StreamEnd.eof⟩, Except.error GoError.eofErr,
        ⟨"", []⟩⟩ "Enter input: ").1
      = Except.error (GoError.wrapped "reading input" GoError.eofErr) :=
  getInput_read_failure false ⟨[], StreamEnd.eof⟩ (Except.error GoError.eofErr)
    "" "Enter input: " [] rfl rfl

/-- C6: when the prompt write succeeds, the bytes `GetConfirm` writes to
the output sink are exactly `p ++ " [Y/n]: "` when `defaultYes` is true and
exactly `p ++ " [y/N]: "` when it is false, whatever the input stream then
does. -/
theorem getConfirm_prompt_bytes (st : Bool) (r : GoReader) (tr : Except GoError String)
    (p : String) (dy : Bool) (script : List (Option GoError))
    (hw : GoWriter.nextOk ⟨"", script⟩ = true) :
    (Console.GetConfirm ⟨st, r, tr, ⟨"", script⟩⟩ p dy).2.out.buf
      = p ++ (if dy then " [Y/n]: " else " [y/N]: ") := by
  rcases script with _ | ⟨o, rest⟩
  · rcases hr : takeLineAux r.content with _ | ⟨l, rest2⟩ <;>
      simp [Console.GetConfirm, Console.GetInput, confirmSuffix,
        GoWriter.write, GoReader.readLine, hr, str_empty_append]
  · rcases o with _ | e
    · rcases hr : takeLineAux r.content with _ | ⟨l, rest2⟩ <;>
        simp [Console.GetConfirm, Console.GetInput, confirmSuffix,
          GoWriter.write, GoReader.readLine, hr, str_empty_append]
    · simp [GoWriter.nextOk] at hw

/-- Witness for C6: `GetConfirm("Proceed?", true)` writes exactly
`"Proceed? [Y/n]: "`. -/
theorem getConfirm_prompt_bytes_witness :
    (Console.GetConfirm ⟨false, ⟨("no\n").data, StreamEnd.eof⟩,
        Except.error GoError.eofErr, ⟨"", []⟩⟩ "Proceed?" true).2.out.buf
      = "Proceed?" ++ (if true then " [Y/n]: " else " [y/N]: ") :=
  getConfirm_prompt_bytes false ⟨("no\n").data, StreamEnd.eof⟩
    (Except.error GoError.eofErr) "Proceed?" true [] rfl

/-- C1: when the underlying line input succeeds (working prompt write, a
newline-terminated line on the stream), `GetConfirm` classifies the trimmed
line: empty returns `defaultYes`; a value whose case-folding is `"y"` or
`"yes"` returns `true`; one whose case-folding is `"n"` or `"no"` returns
`false`; any other non-empty value fails with exactly the sentinel
`ErrInvalidConfirmation` — matching is exact after case-folding, with no
prefix matching. -/
theorem getConfirm_classifies (st : Bool) (tr : Except GoError String) (r : GoReader)
    (buf p : String) (script : List (Option GoError)) (dy : Bool) (l rest : List Char)
    (hw : GoWriter.nextOk ⟨buf, script⟩ = true)
    (hr : takeLineAux r.content = some (l, rest)) :
    (goTrimSpace (String.mk l) = "" →
        (Console.GetConfirm ⟨st, r, tr, ⟨buf, script⟩⟩ p dy).1 = Except.ok dy)
    ∧ (goToLower (goTrimSpace (String.mk l)) = "y"
        ∨ goToLower (goTrimSpace (String.mk l)) = "yes" →
        (Console.GetConfirm ⟨st, r, tr, ⟨buf, script⟩⟩ p dy).1 = Except.ok true)
    ∧ (goToLower (goTrimSpace (String.mk l)) = "n"
        ∨ goToLower (goTrimSpace (String.mk l)) = "no" →
        (Console.GetConfirm ⟨st, r, tr, ⟨buf, script⟩⟩ p dy).1 = Except.ok false)
    ∧ (goTrimSpace (String.mk l) ≠ "" →
       goToLower (goTrimSpace (String.mk l)) ≠ "y" →
       goToLower (goTrimSpace (String.mk l)) ≠ "yes" →
       goToLower (goTrimSpace (String.mk l)) ≠ "n" →
       goToLower (goTrimSpace (String.mk l)) ≠ "no" →
        (Console.GetConfirm ⟨st, r, tr, ⟨buf, script⟩⟩ p dy).1
          = Except.error ErrInvalidConfirmation) := by
  have hred : (Console.GetConfirm ⟨st, r, tr, ⟨buf, script⟩⟩ p dy).1
      = (if goTrimSpace (String.mk l) = "" then Except.ok dy
         else if goToLower (goTrimSpace (String.mk l)) = "y"
             || goToLower (goTrimSpace (String.mk l)) = "yes" then Except.ok true
         else if goToLower (goTrimSpace (String.mk l)) = "n"
             || goToLower (goTrimSpace (String.mk l)) = "no" then Except.ok false
         else Except.error ErrInvalidConfirmation) := by
    rcases script with _ | ⟨o, rest2⟩
    · simp [Console.GetConfirm, Console.GetInput, GoWriter.write,
        GoReader.readLine, hr]
    · rcases o with _ | e
      · simp [Console.GetConfirm, Console.GetInput, GoWriter.write,
          GoReader.readLine, hr]
      · simp [GoWriter.nextOk] at hw
  refine ⟨?_, ?_, ?_, ?_⟩
  · intro h
    rw [hred, if_pos h]
  · intro h
    have ht : ¬ goTrimSpace (String.mk l) = "" := by
      intro h0
      rw [h0] at h
      rcases h with h | h <;> exact absurd h (by decide)
    rw [hred, if_neg ht]
    rcases h with h | h <;> simp [h]
  · intro h
    have ht : ¬ goTrimSpace (String.mk l) = "" := by
      intro h0
      rw [h0] at h
      rcases h with h | h <;> exact absurd h (by decide)
    rw [hred, if_neg ht]
    rcases h with h | h <;> simp [h]
  · intro ht h1 h2 h3 h4
    rw [hred, if_neg ht]
    simp [h1, h2, h3, h4]

/-- Witness for C1: the uppercase full token `"YES"` is accepted and
answers `true` even when the default is no. -/
theorem getConfirm_classifies_witness :
    (Console.GetConfirm ⟨false, ⟨("YES\n").data, StreamEnd.eof⟩,
        Except.error GoError.eofErr, ⟨"", []⟩⟩ "Proceed?" false).1 = Except.ok true := by
  have h := getConfirm_classifies false (Except.error GoError.eofErr)
    ⟨("YES\n").data, StreamEnd.eof⟩ "" "Proceed?" [] false ("YES\n").data [] rfl
    (by decide)
  exact h.2.1 (Or.inr (by decide))

/-- C8: if the underlying line input fails, `GetConfirm` propagates that
failure unchanged — the error it returns is exactly the error `GetInput`
returned for the suffixed prompt — and that error is never the sentinel
`ErrInvalidConfirmation`. -/
theorem getConfirm_propagates_failure (st : Bool) (r : GoReader)
    (tr : Except GoError String) (buf p : String)
    (script : List (Option GoError)) (dy : Bool) (e : GoError)
    (h : (Console.GetInput ⟨st, r, tr, ⟨buf, script⟩⟩ (p ++ confirmSuffix dy)).1
      = Except.error e) :
    (Console.GetConfirm ⟨st, r, tr, ⟨buf, script⟩⟩ p dy).1 = Except.error e
    ∧ e ≠ ErrInvalidConfirmation := by
  constructor
  · rcases hGI : Console.GetInput ⟨st, r, tr, ⟨buf, script⟩⟩ (p ++ confirmSuffix dy)
      with ⟨res, c1⟩
    rw [hGI] at h
    have hres : res = Except.error e := h
    simp [Console.GetConfirm, hGI, hres]
  · obtain ⟨m, cause, rfl⟩ :=
      getInput_error_shape st r tr buf (p ++ confirmSuffix dy) script e h
    simp [ErrInvalidConfirmation]

/-- Witness for C8: with an empty input source, `GetConfirm` returns the
very ReadFailure error `GetInput` produced, which is not the sentinel. -/
theorem getConfirm_propagates_failure_witness :
    (Console.GetConfirm ⟨false, ⟨[], StreamEnd.eof⟩, Except.error GoError.eofErr,
        ⟨"", []⟩⟩ "Proceed?" true).1
      = Except.error (GoError.wrapped "reading input" GoError.eofErr)
    ∧ GoError.wrapped "reading input" GoError.eofErr ≠ ErrInvalidConfirmation :=
  getConfirm_propagates_failure false ⟨[], StreamEnd.eof⟩
    (Except.error GoError.eofErr) "" "Proceed?" [] true
    (GoError.wrapped "reading input" GoError.eofErr) (by decide)

/-- C7 counterexample: after a successful password read, the Go code runs
`fmt.Fprintln(c.out)` and discards its result.  On a console whose sink
accepts the prompt but fails the trailing-newline write, `GetPassword`
still returns the password with no error: the sink's error was consumed
(the script is spent, no newline reached the buffer) yet swallowed. -/
theorem getPassword_swallowed_newline_failure :
    (Console.GetPassword ⟨true, ⟨[], StreamEnd.eof⟩, Except.ok "pw",
        ⟨"", [none, some (GoError.simple "disk full")]⟩⟩ "p").1 = Except.ok "pw"
    ∧ (Console.GetPassword ⟨true, ⟨[], StreamEnd.eof⟩, Except.ok "pw",
        ⟨"", [none, some (GoError.simple "disk full")]⟩⟩ "p").2.out.buf = "p"
    ∧ (Console.GetPassword ⟨true, ⟨[], StreamEnd.eof⟩, Except.ok "pw",
        ⟨"", [none, some (GoError.simple "disk full")]⟩⟩ "p").2.out.script = [] := by
  decide

/-- C7 (amended): every failure of the prompt write or the line read is
returned by `GetInput` and `GetConfirm`, and every failure of the prompt
write, the stdin policy check or the password read is returned by
`GetPassword` — equivalently, a success return means each of those steps
succeeded.  Only the trailing-newline write after a successful password
read is exempt: its error is discarded. -/
theorem failures_returned_to_caller (st : Bool) (r : GoReader)
    (tr : Except GoError String) (buf p : String)
    (script : List (Option GoError)) (dy : Bool) :
    (∀ v, (Console.GetInput ⟨st, r, tr, ⟨buf, script⟩⟩ p).1 = Except.ok v →
       GoWriter.nextOk ⟨buf, script⟩ = true ∧ (takeLineAux r.content).isSome = true)
    ∧ (∀ b, (Console.GetConfirm ⟨st, r, tr, ⟨buf, script⟩⟩ p dy).1 = Except.ok b →
       GoWriter.nextOk ⟨buf, script⟩ = true ∧ (takeLineAux r.content).isSome = true)
    ∧ (∀ v, (Console.GetPassword ⟨st, r, tr, ⟨buf, script⟩⟩ p).1 = Except.ok v →
       GoWriter.nextOk ⟨buf, script⟩ = true ∧ st = true ∧ tr = Except.ok v) := by
  refine ⟨?_, ?_, ?_⟩
  · intro v hv
    rcases script with _ | ⟨o, rest⟩
    · rcases hr : takeLineAux r.content with _ | ⟨l, rest2⟩ <;>
        simp [Console.GetInput, GoWriter.write, GoWriter.nextOk,
          GoReader.readLine, hr] at hv ⊢
    · rcases o with _ | e
      · rcases hr : takeLineAux r.content with _ | ⟨l, rest2⟩ <;>
          simp [Console.GetInput, GoWriter.write, GoWriter.nextOk,
            GoReader.readLine, hr] at hv ⊢
      · simp [Console.GetInput, GoWriter.write] at hv
  · intro b hb
    rcases script with _ | ⟨o, rest⟩
    · rcases hr : takeLineAux r.content with _ | ⟨l, rest2⟩ <;>
        simp [Console.GetConfirm, Console.GetInput, GoWriter.write,
          GoWriter.nextOk, GoReader.readLine, hr] at hb ⊢
    · rcases o with _ | e
      · rcases hr : takeLineAux r.content with _ | ⟨l, rest2⟩ <;>
          simp [Console.GetConfirm, Console.GetInput, GoWriter.write,
            GoWriter.nextOk, GoReader.readLine, hr] at hb ⊢
      · simp [Console.GetConfirm, Console.GetInput, GoWriter.write] at hb
  · intro v hv
    rcases st with _ | _
    · rcases script with _ | ⟨o, rest⟩
      · simp [Console.GetPassword, GoWriter.write] at hv
      · rcases o with _ | e <;> simp [Console.GetPassword, GoWriter.write] at hv
    · rcases tr with e | pw
      · rcases script with _ | ⟨o, rest⟩
        · simp [Console.GetPassword, GoWriter.write] at hv
        · rcases o with _ | e2 <;> simp [Console.GetPassword, GoWriter.write] at hv
      · rcases script with _ | ⟨o, rest⟩
        · simp [Console.GetPassword, GoWriter.write, GoWriter.nextOk] at hv ⊢
          exact hv
        · rcases o with _ | e2
          · simp [Console.GetPassword, GoWriter.write, GoWriter.nextOk] at hv ⊢
            exact hv
          · simp [Console.GetPassword, GoWriter.write] at hv

/-- Witness for C7 (amended): a successful `GetInput` certifies that its
prompt write succeeded and a full line was available. -/
theorem failures_returned_to_caller_witness :
    GoWriter.nextOk ⟨"", []⟩ = true
    ∧ (takeLineAux ("x\n").data).isSome = true :=
  (failures_returned_to_caller false ⟨("x\n").data, StreamEnd.eof⟩
    (Except.error GoError.eofErr) "" "p" [] true).1 "x" (by decide)

/-- C9: `NewWithStreams` stores absent (nil) capabilities unchecked, and
the first use of an operation fails loudly: with a nil output sink the
prompt write panics at once; with a nil input source the operation panics
as soon as it reaches the read (the prompt write on a present sink either
succeeds first or returns that sink's own error); and in no case does an
operation with an absent capability ever return a success value — no
placeholder capability is silently substituted. -/
theorem nil_capability_fails_loudly (oi : Option GoReader) (oo : Option GoWriter)
    (p : String) :
    (oo = none → OptConsole.getInputUse (NewWithStreams oi oo) p = UseOutcome.panicked)
    ∧ (∀ w : GoWriter, oi = none → oo = some w → GoWriter.nextOk w = true →
        OptConsole.getInputUse (NewWithStreams oi oo) p = UseOutcome.panicked)
    ∧ ((oi = none ∨ oo = none) → ∀ v : String,
        OptConsole.getInputUse (NewWithStreams oi oo) p
          ≠ UseOutcome.returned (Except.ok v)) := by
  refine ⟨?_, ?_, ?_⟩
  · rintro rfl
    rfl
  · rintro w rfl rfl hw
    rcases w with ⟨buf, script⟩
    rcases script with _ | ⟨o, rest⟩
    · rfl
    · rcases o with _ | e
      · rfl
      · simp [GoWriter.nextOk] at hw
  · rintro (rfl | rfl) v
    · rcases oo with _ | w
      · simp [NewWithStreams, OptConsole.getInputUse]
      · rcases w with ⟨buf, script⟩
        rcases script with _ | ⟨o, rest⟩
        · simp [NewWithStreams, OptConsole.getInputUse, GoWriter.write]
        · rcases o with _ | e <;>
            simp [NewWithStreams, OptConsole.getInputUse, GoWriter.write]
    · simp [NewWithStreams, OptConsole.getInputUse]

/-- Witness for C9: constructing with both capabilities absent panics at
the first `GetInput`. -/
theorem nil_capability_fails_loudly_witness :
    OptConsole.getInputUse (NewWithStreams none none) "p" = UseOutcome.panicked :=
  (nil_capability_fails_loudly none none "p").1 rfl

/-- C2 counterexample: `GetInput` does not implement trimming of just
space, tab, newline and carriage return, and does not return the whole
content up to the final terminator.  A vertical-tab line (`"\x0B\n"`) comes
back as `""` although `specTrim` keeps the vertical tab, and a stream
`"a\nb\n"` (the string `"a\nb"` followed by a terminator) comes back as
`"a"`, not `specTrim "a\nb"`. -/
theorem getInput_spec_trim_counterexample :
    ((Console.GetInput ⟨false, ⟨("\x0B" ++ "\n").data, StreamEnd.eof⟩,
        Except.error GoError.eofErr, ⟨"", []⟩⟩ "p").1 ≠ Except.ok (specTrim "\x0B")
     ∧ (Console.GetInput ⟨false, ⟨("\x0B" ++ "\n").data, StreamEnd.eof⟩,
        Except.error GoError.eofErr, ⟨"", []⟩⟩ "p").1 = Except.ok "")
    ∧ ((Console.GetInput ⟨false, ⟨("a\nb" ++ "\n").data, StreamEnd.eof⟩,
        Except.error GoError.eofErr, ⟨"", []⟩⟩ "p").1 ≠ Except.ok (specTrim "a\nb")
     ∧ (Console.GetInput ⟨false, ⟨("a\nb" ++ "\n").data, StreamEnd.eof⟩,
        Except.error GoError.eofErr, ⟨"", []⟩⟩ "p").1 = Except.ok "a") := by
  decide

/-- C2 (amended): for every prompt and every string `s` containing no
newline, on a stream holding `s` followed by a line terminator with a
working sink, `GetInput` returns `s` stripped of leading and trailing
Unicode white space (Go's `strings.TrimSpace` set, which also covers
vertical tab, form feed and the other Unicode space characters) — possibly
the empty string — and the bytes written to the sink are exactly the
prompt, with no extra characters and no trailing newline. -/
theorem getInput_trims_unicode (st : Bool) (tr : Except GoError String)
    (ending : StreamEnd) (p s : String) (script : List (Option GoError))
    (hw : GoWriter.nextOk ⟨"", script⟩ = true)
    (hs : '\n' ∉ s.data) :
    (Console.GetInput ⟨st, ⟨(s ++ "\n").data, ending⟩, tr, ⟨"", script⟩⟩ p).1
      = Except.ok (goTrimSpace s)
    ∧ (Console.GetInput ⟨st, ⟨(s ++ "\n").data, ending⟩, tr, ⟨"", script⟩⟩ p).2.out.buf
      = p := by
  have htl : takeLineAux (s.data ++ ['\n']) = some (s.data ++ ['\n'], []) :=
    takeLineAux_append_newline s.data hs
  have htrim : goTrimSpace (String.mk (s.data ++ ['\n'])) = goTrimSpace s := by
    simp [goTrimSpace, goTrimSpaceList_append_newline]
  rcases script with _ | ⟨o, rest⟩
  · constructor
    · simp [Console.GetInput, GoWriter.write, GoReader.readLine, htl, htrim]
    · simp [Console.GetInput, GoWriter.write, GoReader.readLine, htl,
        str_empty_append]
  · rcases o with _ | e
    · constructor
      · simp [Console.GetInput, GoWriter.write, GoReader.readLine, htl, htrim]
      · simp [Console.GetInput, GoWriter.write, GoReader.readLine, htl,
          str_empty_append]
    · simp [GoWriter.nextOk] at hw

/-- Witness for C2 (amended): the spec's own scenario — prompt `"Name: "`,
input `"  Ada  \n"` — returns `"Ada"` and writes exactly `"Name: "`. -/
theorem getInput_trims_unicode_witness :
    (Console.GetInput ⟨false, ⟨("  Ada  " ++ "\n").data, StreamEnd.eof⟩,
        Except.error GoError.eofErr, ⟨"", []⟩⟩ "Name: ").1
      = Except.ok (goTrimSpace "  Ada  ")
    ∧ (Console.GetInput ⟨false, ⟨("  Ada  " ++ "\n").data, StreamEnd.eof⟩,
        Except.error GoError.eofErr, ⟨"", []⟩⟩ "Name: ").2.out.buf = "Name: " :=
  getInput_trims_unicode false (Except.error GoError.eofErr) StreamEnd.eof
    "Name: " "  Ada  " [] rfl (by decide)
